import Mathlib

/-!
Shallow embedding of the baila-kids-admin reconciliation & pricing logic.

Sources:
* client dashboard component (`src/unnamed/part_000`): `Student`, `prices`,
  `calculateOwed`, `tuitionFor`, `chooseStartDateIso`, `earnings`,
  `dayOptionsFor`;
* students API handler (first document in `src/src/pages/api/admin/waitlist.ts`,
  the `SPRING_2026` variant): `StudentRow`, `JoinedRow`, the per-student
  aggregation (`Agg`, the `byStudent` map), the DTO composition, and the PUT
  update path.

Modelling conventions:
* TS string-union types become inductives; nullable/optional fields become
  `Option`;
* JavaScript `Date` values / epoch timestamps are modelled as `Int`
  (milliseconds); `toISOString` is strictly monotone and injective on
  timestamps, so ISO strings produced from timestamps are modelled by the
  timestamps themselves;
* ISO strings handled as strings on the client are compared the way
  JavaScript compares strings (lexicographically by code unit), modelled as
  lexicographic order on `String.toList`;
* `Array.prototype.sort` with a numeric comparator is a stable sort by the
  comparator key; it is modelled with `List.insertionSort`, which is stable;
* JS `Set` is an insertion-ordered duplicate-free list, JS `Map` an
  insertion-ordered key-unique association list.
-/

namespace Baila

/-- `type LocationKey = 'KATY' | 'SUGARLAND'`. -/
inductive LocationKey
  | KATY
  | SUGARLAND
deriving DecidableEq, Repr

/-- `type SessionKey = 'A' | 'B'`. -/
inductive SessionKey
  | A
  | B
deriving DecidableEq, Repr

/-- `paymentStatus: 'PENDING' | 'PAID' | 'FAILED'`. -/
inductive PaymentStatus
  | PENDING
  | PAID
  | FAILED
deriving DecidableEq, Repr

/-- `frequency: 'ONCE_A_WEEK' | 'TWICE_A_WEEK'`. -/
inductive Frequency
  | ONCE_A_WEEK
  | TWICE_A_WEEK
deriving DecidableEq, Repr

/-- Client `type DayKey = 'Monday' | 'Tuesday' | 'Wednesday' | 'Thursday'`. -/
inductive DayKey
  | Monday
  | Tuesday
  | Wednesday
  | Thursday
deriving DecidableEq, Repr

/-- The TS string denoted by a `DayKey` literal. -/
def dayKeyStr : DayKey → String
  | .Monday => "Monday"
  | .Tuesday => "Tuesday"
  | .Wednesday => "Wednesday"
  | .Thursday => "Thursday"

/-- `type PriceRow = { both: number } & Partial<Record<DayKey, number>>`:
the required `both` entry plus optional per-day entries (absent keys give
`undefined`, i.e. `none`). -/
structure PriceRow where
  both : Nat
  dayPrice : String → Option Nat

/-- The static `prices: PriceTable` literal of the dashboard component. -/
def prices : LocationKey → SessionKey → PriceRow
  | .KATY, .A =>
      { both := 450
        dayPrice := fun d =>
          if d = "Tuesday" then some 245
          else if d = "Wednesday" then some 245
          else none }
  | .KATY, .B =>
      { both := 450
        dayPrice := fun d =>
          if d = "Tuesday" then some 245
          else if d = "Wednesday" then some 245
          else none }
  | .SUGARLAND, .A =>
      { both := 450
        dayPrice := fun d =>
          if d = "Monday" then some 230
          else if d = "Thursday" then some 245
          else none }
  | .SUGARLAND, .B =>
      { both := 380
        dayPrice := fun d =>
          if d = "Monday" then some 195
          else if d = "Thursday" then some 195
          else none }

/-- `dayOptionsFor`: allowed class days by location
(`loc === 'KATY' ? ['Tuesday','Wednesday'] : ['Monday','Thursday']`). -/
def dayOptionsFor : LocationKey → List DayKey
  | .KATY => [.Tuesday, .Wednesday]
  | .SUGARLAND => [.Monday, .Thursday]

/-- Client-side `interface Student` (the fields the modelled functions read).
`startDatesByDay` is an optional record with `DayKey` keys. -/
structure Student where
  id : String
  studentName : String
  age : Int
  location : LocationKey
  frequency : Frequency
  selectedDays : List String
  startDate : String
  sessionLabel : Option SessionKey
  startDatesByDay : Option (List (DayKey × String))
  paymentStatus : PaymentStatus
deriving DecidableEq, Repr

/-- `const calculateOwed = (s) => { if (s.paymentStatus === 'PAID') return 0;
const session = s.sessionLabel ?? 'A'; if (s.frequency === 'ONCE_A_WEEK')
{ const day = s.selectedDays?.[0] ?? 'Monday';
return prices[loc][session][day] ?? 0; } return prices[loc][session].both; }` -/
def calculateOwed (s : Student) : Nat :=
  if s.paymentStatus = .PAID then 0
  else
    let session := s.sessionLabel.getD .A
    if s.frequency = .ONCE_A_WEEK then
      let day := s.selectedDays.head?.getD "Monday"
      ((prices s.location session).dayPrice day).getD 0
    else (prices s.location session).both

/-- `tuitionFor`: identical to `calculateOwed` except for the missing
PAID short-circuit. -/
def tuitionFor (s : Student) : Nat :=
  let session := s.sessionLabel.getD .A
  if s.frequency = .ONCE_A_WEEK then
    let day := s.selectedDays.head?.getD "Monday"
    ((prices s.location session).dayPrice day).getD 0
  else (prices s.location session).both

/-- Property access `record[d]` for a `Partial<Record<DayKey, string>>`
indexed by an arbitrary string `d`: it hits an entry exactly when `d` is
one of the four day-key property names. -/
def parseDayKey (d : String) : Option DayKey :=
  if d = "Monday" then some .Monday
  else if d = "Tuesday" then some .Tuesday
  else if d = "Wednesday" then some .Wednesday
  else if d = "Thursday" then some .Thursday
  else none

/-- Record lookup (a JS object holds at most one value per key). -/
def recordGet (m : List (DayKey × String)) (k : DayKey) : Option String :=
  (m.find? (fun p => p.1 = k)).map (·.2)

/-- `s.startDatesByDay?.[d as DayKey]` for a string `d`. -/
def dayDateLookup (s : Student) (d : String) : Option String :=
  match s.startDatesByDay with
  | none => none
  | some m =>
    match parseDayKey d with
    | none => none
    | some k => recordGet m k

/-- JavaScript string comparison (`<` / default `sort()`): lexicographic by
code unit, modelled on the character list. -/
def strLe (a b : String) : Prop := a.toList ≤ b.toList

instance : DecidableRel strLe := fun a b => by
  unfold strLe; infer_instance

instance : IsTotal String strLe := ⟨fun a b => le_total a.toList b.toList⟩

instance : IsTrans String strLe := ⟨fun _ _ _ h h' => le_trans h h'⟩

/-- The `fromDays` local of `chooseStartDateIso`:
`(s.startDatesByDay && s.selectedDays?.length)
  ? s.selectedDays.map(d => s.startDatesByDay?.[d]).filter(Boolean) : []`
(`filter(Boolean)` drops `undefined` and empty strings). -/
def clientFromDays (s : Student) : List String :=
  if s.startDatesByDay.isSome ∧ s.selectedDays ≠ [] then
    ((s.selectedDays.filterMap (dayDateLookup s)).filter (fun x => x ≠ ""))
  else []

/-- `chooseStartDateIso`: if `fromDays` is nonempty return
`[...fromDays].sort()[0]`, else `s.startDate`. -/
def chooseStartDateIso (s : Student) : String :=
  match List.insertionSort strLe (clientFromDays s) with
  | [] => s.startDate
  | x :: _ => x

/-- Accumulator of the `earnings` reducer (counts and dollar totals). -/
structure Earnings where
  paidCount : Nat
  unpaidCount : Nat
  failedCount : Nat
  earned : Nat
  outstanding : Nat
deriving DecidableEq, Repr

/-- One iteration of the `for (const s of students)` loop in `earnings`. -/
def earningsStep (acc : Earnings) (s : Student) : Earnings :=
  let amt := tuitionFor s
  match s.paymentStatus with
  | .PAID => { acc with paidCount := acc.paidCount + 1, earned := acc.earned + amt }
  | .PENDING => { acc with unpaidCount := acc.unpaidCount + 1, outstanding := acc.outstanding + amt }
  | .FAILED => { acc with failedCount := acc.failedCount + 1, outstanding := acc.outstanding + amt }

/-- The `earnings` aggregation over the student list. -/
def earnings (students : List Student) : Earnings :=
  students.foldl earningsStep ⟨0, 0, 0, 0, 0⟩

/-- `interface StudentRow`: a `Student` database row as fetched by
`prisma.student.findMany`. `startDate` is a `Date`, modelled as epoch ms. -/
structure StudentRow where
  id : String
  studentName : String
  age : Int
  parentName : String
  phone : String
  email : String
  location : LocationKey
  frequency : Frequency
  selectedDays : List String
  startDate : Int
  paymentStatus : PaymentStatus
  paymentMethod : Option String
  liabilityAccepted : Bool
  waiverName : Option String
  waiverAddress : Option String
deriving DecidableEq, Repr

/-- `type JoinedRow`: one row of the raw Enrollment ⋈ ClassSection query.
`startdate = none` models both SQL `NULL` and an invalid `Date` (the code
guards with `instanceof Date && !Number.isNaN(getTime())`). -/
structure JoinedRow where
  studentid : Option String
  day : Option String
  label : Option SessionKey
  startdate : Option Int
deriving DecidableEq, Repr

/-- The `labels: Record<SessionKey, number>` counter of an `Agg`. -/
structure Labels where
  A : Nat
  B : Nat
deriving DecidableEq, Repr

/-- `type Agg`: per-student aggregation bucket. `days` models the JS `Set`
(insertion order, no duplicates), `byDay` the JS `Map` day → earliest
start (ISO strings modelled by their timestamps). -/
structure Agg where
  days : List String
  starts : List Int
  labels : Labels
  byDay : List (String × Int)
deriving DecidableEq, Repr

/-- The fresh bucket `{ days: new Set(), starts: [], labels: {A:0,B:0},
byDay: new Map() }`. -/
def emptyAgg : Agg := ⟨[], [], ⟨0, 0⟩, []⟩

/-- `Set.add`: append if not already present. -/
def setAdd (s : List String) (x : String) : List String :=
  if x ∈ s then s else s ++ [x]

/-- `Map.get` on an association list. -/
def mapGetI (m : List (String × Int)) (k : String) : Option Int :=
  (m.find? (fun p => p.1 = k)).map (·.2)

/-- `Map.set`: overwrite in place if the key exists, else append. -/
def mapSetI (m : List (String × Int)) (k : String) (v : Int) : List (String × Int) :=
  if m.any (fun p => p.1 = k) then
    m.map (fun p => if p.1 = k then (k, v) else p)
  else m ++ [(k, v)]

/-- `if (r.day) entry.days.add(r.day.trim())` (a JS string is truthy iff
nonempty). -/
def addDay (a : Agg) (day : Option String) : Agg :=
  match day with
  | some d => if d ≠ "" then { a with days := setAdd a.days d.trim } else a
  | none => a

/-- `if (r.label === 'A' || r.label === 'B') entry.labels[label] += 1`. -/
def addLabel (a : Agg) (lab : Option SessionKey) : Agg :=
  match lab with
  | some .A => { a with labels := { a.labels with A := a.labels.A + 1 } }
  | some .B => { a with labels := { a.labels with B := a.labels.B + 1 } }
  | none => a

/-- The valid-startdate branch: push the timestamp onto `starts` and, when
the row has a (truthy) day, keep the earliest value per day in `byDay`
(`!existing || new Date(iso) < new Date(existing)`). -/
def addStart (a : Agg) (day : Option String) (sd : Option Int) : Agg :=
  match sd with
  | none => a
  | some t =>
    let a1 := { a with starts := a.starts ++ [t] }
    match day with
    | some d =>
      if d ≠ "" then
        match mapGetI a1.byDay d with
        | none => { a1 with byDay := mapSetI a1.byDay d t }
        | some e => if t < e then { a1 with byDay := mapSetI a1.byDay d t } else a1
      else a1
    | none => a1

/-- The body of `for (const r of joined)` applied to one row's bucket. -/
def aggStep (a : Agg) (r : JoinedRow) : Agg :=
  addStart (addLabel (addDay a r.day) r.label) r.day r.startdate

/-- `Map.get` on the `byStudent` map. -/
def mapGetA (m : List (String × Agg)) (k : String) : Option Agg :=
  (m.find? (fun p => p.1 = k)).map (·.2)

/-- `Map.set` on the `byStudent` map. -/
def mapSetA (m : List (String × Agg)) (k : String) (v : Agg) : List (String × Agg) :=
  if m.any (fun p => p.1 = k) then
    m.map (fun p => if p.1 = k then (k, v) else p)
  else m ++ [(k, v)]

/-- One iteration of the aggregation loop: skip rows with a falsy
`studentid` (`if (!r.studentid) continue`), otherwise update that
student's bucket. -/
def buildStep (m : List (String × Agg)) (r : JoinedRow) : List (String × Agg) :=
  match r.studentid with
  | none => m
  | some sid =>
    if sid = "" then m
    else mapSetA m sid (aggStep ((mapGetA m sid).getD emptyAgg) r)

/-- The `byStudent` map after the whole loop. -/
def byStudent (joined : List JoinedRow) : List (String × Agg) :=
  joined.foldl buildStep []

/-- `DAY_ORDER` lookup: `DAY_ORDER[a]` (`undefined` off the table). -/
def DAY_ORDER (d : String) : Option Nat :=
  if d = "Monday" then some 1
  else if d = "Tuesday" then some 2
  else if d = "Wednesday" then some 3
  else if d = "Thursday" then some 4
  else if d = "Friday" then some 5
  else if d = "Saturday" then some 6
  else if d = "Sunday" then some 7
  else none

/-- The comparator key `DAY_ORDER[a] ?? 99`. -/
def dayOrderKey (d : String) : Nat := (DAY_ORDER d).getD 99

/-- The sort order induced by the comparator
`(a, b) => (DAY_ORDER[a] ?? 99) - (DAY_ORDER[b] ?? 99)`. -/
def dayLe (a b : String) : Prop := dayOrderKey a ≤ dayOrderKey b

instance : DecidableRel dayLe := fun a b => by
  unfold dayLe; infer_instance

instance : IsTotal String dayLe := ⟨fun _ _ => Nat.le_total _ _⟩

instance : IsTrans String dayLe := ⟨fun _ _ _ h h' => Nat.le_trans h h'⟩

/-- `function isDayKey(x) { return x === 'Monday' || ... || x === 'Thursday' }`. -/
def isDayKey (d : String) : Bool :=
  d = "Monday" ∨ d = "Tuesday" ∨ d = "Wednesday" ∨ d = "Thursday"

/-- The `AdminStudentDTO` composed for the admin UI. `startDate` and the
`startDatesByDay` values are the timestamps underlying the ISO strings. -/
structure AdminStudentDTO where
  id : String
  studentName : String
  age : Int
  parentName : String
  phone : String
  email : String
  location : LocationKey
  frequency : Frequency
  selectedDays : List String
  startDate : Int
  sessionLabel : Option SessionKey
  startDatesByDay : List (String × Int)
  paymentStatus : PaymentStatus
  paymentMethod : Option String
  liabilityAccepted : Bool
  waiverName : Option String
  waiverAddress : Option String
deriving DecidableEq, Repr

/-- The student's bucket: `byStudent.get(s.id)`. -/
def aggOf (joined : List JoinedRow) (sid : String) : Option Agg :=
  mapGetA (byStudent joined) sid

/-- `const fromEnrollments = agg ? Array.from(agg.days) : undefined;
const selectedDays = (fromEnrollments ?? s.selectedDays ?? []).slice().sort(cmp)`. -/
def selectedDaysOf (joined : List JoinedRow) (s : StudentRow) : List String :=
  List.insertionSort dayLe (((aggOf joined s.id).map (·.days)).getD s.selectedDays)

/-- `sessionLabel = agg ? (agg.labels.A >= agg.labels.B
? (agg.labels.A ? 'A' : null) : 'B') : null` (a JS number is truthy iff
nonzero). -/
def sessionLabelOf (joined : List JoinedRow) (sid : String) : Option SessionKey :=
  match aggOf joined sid with
  | none => none
  | some a =>
    if a.labels.A ≥ a.labels.B then
      (if a.labels.A ≠ 0 then some .A else none)
    else some .B

/-- `Math.min(...)` over a nonempty spread, as a fold of binary `min`. -/
def minStarts (x : Int) (xs : List Int) : Int := xs.foldl min x

/-- `const earliestTs = (agg && agg.starts.length > 0)
? Math.min(...agg.starts) : s.startDate.getTime()`. -/
def earliestTsOf (joined : List JoinedRow) (s : StudentRow) : Int :=
  match aggOf joined s.id with
  | some a =>
    match a.starts with
    | [] => s.startDate
    | t :: ts => minStarts t ts
  | none => s.startDate

/-- The `startDatesByDay` record: entries of `agg.byDay` whose key passes
`isDayKey` (iteration in map order; keys are unique). -/
def startDatesByDayOf (joined : List JoinedRow) (sid : String) : List (String × Int) :=
  match aggOf joined sid with
  | some a => a.byDay.filter (fun p => isDayKey p.1)
  | none => []

/-- `const frequency = selectedDays.length >= 2 ? 'TWICE_A_WEEK' : 'ONCE_A_WEEK'`. -/
def frequencyOf (joined : List JoinedRow) (s : StudentRow) : Frequency :=
  if (selectedDaysOf joined s).length ≥ 2 then .TWICE_A_WEEK else .ONCE_A_WEEK

/-- The DTO returned for one student by the GET composition. -/
def composeOne (joined : List JoinedRow) (s : StudentRow) : AdminStudentDTO :=
  { id := s.id
    studentName := s.studentName
    age := s.age
    parentName := s.parentName
    phone := s.phone
    email := s.email
    location := s.location
    frequency := frequencyOf joined s
    selectedDays := selectedDaysOf joined s
    startDate := earliestTsOf joined s
    sessionLabel := sessionLabelOf joined s.id
    startDatesByDay := startDatesByDayOf joined s.id
    paymentStatus := s.paymentStatus
    paymentMethod := s.paymentMethod
    liabilityAccepted := s.liabilityAccepted
    waiverName := s.waiverName
    waiverAddress := s.waiverAddress }

/-- `const data = students.map(...)`: the whole GET response body. -/
def composeViews (students : List StudentRow) (joined : List JoinedRow) :
    List AdminStudentDTO :=
  students.map (composeOne joined)

/-- The joined rows attributed to student `sid` by the aggregation loop
(rows with falsy `studentid` are skipped, so the key `""` never occurs). -/
def rowsFor (joined : List JoinedRow) (sid : String) : List JoinedRow :=
  if sid = "" then []
  else joined.filter (fun r => r.studentid = some sid)

/-- The PUT body: `{ id?, paymentStatus?, paymentMethod? }`. The outer
`Option` on `paymentMethod` is the `undefined` check
(`typeof body.paymentMethod !== 'undefined'`); the inner one is
`string | null`. `paymentStatus` is included in the patch when it is a
string (modelled: a valid status). -/
structure UpdatePayload where
  id : Option String
  paymentStatus : Option PaymentStatus
  paymentMethod : Option (Option String)
deriving DecidableEq, Repr

/-- The `patch` object applied by `prisma.student.update`. -/
def applyPatch (body : UpdatePayload) (s : StudentRow) : StudentRow :=
  let s1 :=
    match body.paymentStatus with
    | some p => { s with paymentStatus := p }
    | none => s
  match body.paymentMethod with
  | some m => { s1 with paymentMethod := m }
  | none => s1

/-- The PUT branch as a state transformer on the student table:
`if (!id) return 400` (no mutation; `""` is falsy too), else update the
row whose unique `id` matches. -/
def putStudents (db : List StudentRow) (body : UpdatePayload) : List StudentRow :=
  match body.id with
  | none => db
  | some i =>
    if i = "" then db
    else db.map (fun s => if s.id = i then applyPatch body s else s)

instance : IsRefl String strLe := ⟨fun a => le_refl a.toList⟩

instance : IsRefl String dayLe := ⟨fun _ => Nat.le_refl _⟩

/-- Number of the student's attributed rows labelled `A`. -/
def labelCountA (joined : List JoinedRow) (sid : String) : Nat :=
  (rowsFor joined sid).countP (fun r => r.label = some SessionKey.A)

/-- Number of the student's attributed rows labelled `B`. -/
def labelCountB (joined : List JoinedRow) (sid : String) : Nat :=
  (rowsFor joined sid).countP (fun r => r.label = some SessionKey.B)

/-- The valid start timestamps carried by the student's rows. -/
def validStarts (joined : List JoinedRow) (sid : String) : List Int :=
  (rowsFor joined sid).filterMap (·.startdate)

/-- The per-day start dates (values of the aggregation's `byDay` map). -/
def perDayStarts (joined : List JoinedRow) (sid : String) : List Int :=
  ((rowsFor joined sid).foldl aggStep emptyAgg).byDay.map (·.2)

def c1Paid : Student :=
  { id := "c1a", studentName := "n", age := 5, location := .KATY,
    frequency := .TWICE_A_WEEK, selectedDays := [], startDate := "",
    sessionLabel := none, startDatesByDay := none, paymentStatus := .PAID }

def c1Twice : Student :=
  { id := "c1b", studentName := "n", age := 6, location := .SUGARLAND,
    frequency := .TWICE_A_WEEK, selectedDays := ["Monday", "Thursday"],
    startDate := "", sessionLabel := some .B, startDatesByDay := none,
    paymentStatus := .PENDING }

def c1Once : Student :=
  { id := "c1c", studentName := "n", age := 7, location := .KATY,
    frequency := .ONCE_A_WEEK, selectedDays := ["Tuesday"], startDate := "",
    sessionLabel := none, startDatesByDay := none, paymentStatus := .FAILED }

def c5Row : StudentRow :=
  { id := "c5", studentName := "n", age := 8, parentName := "p", phone := "1",
    email := "e", location := .KATY, frequency := .ONCE_A_WEEK,
    selectedDays := ["Tuesday"], startDate := 10, paymentStatus := .PENDING,
    paymentMethod := none, liabilityAccepted := true, waiverName := none,
    waiverAddress := none }

def c5Join : List JoinedRow := [⟨some "c5", some "Tuesday", some .A, some 10⟩]

def c5Client : Student :=
  { id := "c5", studentName := "n", age := 8, location := .KATY,
    frequency := .ONCE_A_WEEK, selectedDays := ["Tuesday"], startDate := "",
    sessionLabel := some .A, startDatesByDay := none, paymentStatus := .PENDING }

def c2Student : StudentRow :=
  { id := "s1", studentName := "Ana", age := 7, parentName := "P", phone := "1",
    email := "e", location := .KATY, frequency := .ONCE_A_WEEK, selectedDays := [],
    startDate := 500, paymentStatus := .PENDING, paymentMethod := none,
    liabilityAccepted := true, waiverName := none, waiverAddress := none }

def c2Joined : List JoinedRow := [⟨some "s1", some "Monday", none, none⟩]

def c2wStudent : StudentRow :=
  { id := "s2", studentName := "Bea", age := 9, parentName := "Q", phone := "2",
    email := "f", location := .SUGARLAND, frequency := .ONCE_A_WEEK,
    selectedDays := [], startDate := 700, paymentStatus := .PAID,
    paymentMethod := none, liabilityAccepted := true, waiverName := none,
    waiverAddress := none }

def c2wJoined : List JoinedRow :=
  [⟨some "s2", some "Monday", some .B, none⟩,
   ⟨some "s2", some "Thursday", some .A, none⟩,
   ⟨some "s2", some "Monday", some .A, none⟩]

def c3Student : StudentRow :=
  { id := "s3", studentName := "Cara", age := 6, parentName := "R", phone := "3",
    email := "g", location := .KATY, frequency := .ONCE_A_WEEK,
    selectedDays := ["Thursday", "Monday"], startDate := 100,
    paymentStatus := .PENDING, paymentMethod := none, liabilityAccepted := false,
    waiverName := none, waiverAddress := none }

def c3Joined : List JoinedRow :=
  [⟨some "s3", some "Wednesday", some .A, none⟩,
   ⟨some "s3", some "Tuesday ", some .A, none⟩,
   ⟨some "s3", some "Wednesday", some .A, none⟩]

def c3NoRows : List JoinedRow := [⟨some "other", some "Monday", some .A, none⟩]

def c10List : List Student :=
  [{ id := "t1", studentName := "n", age := 5, location := .KATY,
     frequency := .TWICE_A_WEEK, selectedDays := ["Tuesday", "Wednesday"],
     startDate := "", sessionLabel := some .A, startDatesByDay := none,
     paymentStatus := .PAID },
   { id := "t2", studentName := "m", age := 6, location := .SUGARLAND,
     frequency := .ONCE_A_WEEK, selectedDays := ["Monday"], startDate := "",
     sessionLabel := some .B, startDatesByDay := none,
     paymentStatus := .FAILED }]

def c4Student : StudentRow :=
  { id := "s4", studentName := "Dana", age := 8, parentName := "S", phone := "4",
    email := "h", location := .KATY, frequency := .ONCE_A_WEEK,
    selectedDays := [], startDate := 500, paymentStatus := .PENDING,
    paymentMethod := none, liabilityAccepted := true, waiverName := none,
    waiverAddress := none }

def c4Joined : List JoinedRow :=
  [⟨some "s4", none, some .A, some 0⟩,
   ⟨some "s4", some "Monday", some .A, some 100⟩]

def c4wStudent : StudentRow :=
  { id := "s5", studentName := "Eli", age := 9, parentName := "T", phone := "5",
    email := "i", location := .SUGARLAND, frequency := .TWICE_A_WEEK,
    selectedDays := [], startDate := 999, paymentStatus := .PENDING,
    paymentMethod := none, liabilityAccepted := true, waiverName := none,
    waiverAddress := none }

def c4wJoined : List JoinedRow :=
  [⟨some "s5", some "Monday", some .A, some 300⟩,
   ⟨some "s5", some "Thursday", some .A, some 200⟩]

def c4wClient : Student :=
  { id := "s5", studentName := "Eli", age := 9, location := .SUGARLAND,
    frequency := .TWICE_A_WEEK, selectedDays := ["Monday", "Thursday"],
    startDate := "2025-09-01",
    sessionLabel := some .A,
    startDatesByDay := some [(.Monday, "2025-09-08"), (.Thursday, "2025-09-04")],
    paymentStatus := .PENDING }

def c4wClientNoMap : Student :=
  { id := "s6", studentName := "Fay", age := 4, location := .KATY,
    frequency := .ONCE_A_WEEK, selectedDays := ["Tuesday"],
    startDate := "2025-08-20", sessionLabel := none, startDatesByDay := none,
    paymentStatus := .PENDING }

def c7a : StudentRow :=
  { id := "a", studentName := "Gia", age := 5, parentName := "U", phone := "6",
    email := "j", location := .KATY, frequency := .ONCE_A_WEEK,
    selectedDays := ["Tuesday"], startDate := 1, paymentStatus := .PENDING,
    paymentMethod := none, liabilityAccepted := true, waiverName := none,
    waiverAddress := none }

def c7b : StudentRow :=
  { id := "b", studentName := "Hal", age := 6, parentName := "V", phone := "7",
    email := "k", location := .SUGARLAND, frequency := .TWICE_A_WEEK,
    selectedDays := ["Monday", "Thursday"], startDate := 2,
    paymentStatus := .FAILED, paymentMethod := some "Cash",
    liabilityAccepted := false, waiverName := none, waiverAddress := none }

def c7db : List StudentRow := [c7a, c7b]

def c7body : UpdatePayload :=
  { id := some "a", paymentStatus := some .PAID, paymentMethod := some (some "Zelle") }

/-! ## Theorems -/

theorem find?_congrOn {α : Type} {p q : α → Bool} (l : List α)
    (h : ∀ x ∈ l, p x = q x) : l.find? p = l.find? q := by
  induction l with
  | nil => rfl
  | cons a t ih =>
    simp only [List.find?]
    rw [h a (List.mem_cons_self a t)]
    cases q a with
    | false => exact ih (fun x hx => h x (List.mem_cons_of_mem a hx))
    | true => rfl

theorem mapGetA_mapSetA_self (m : List (String × Agg)) (k : String) (v : Agg) :
    mapGetA (mapSetA m k v) k = some v := by
  unfold mapGetA mapSetA
  split
  · rename_i h
    rw [List.find?_map]
    obtain ⟨p, hp, hpk⟩ := List.any_eq_true.mp h
    have hfind : List.find? ((fun q => decide (q.1 = k)) ∘
        (fun p => if p.1 = k then (k, v) else p)) m =
        List.find? (fun q => decide (q.1 = k)) m := by
      apply find?_congrOn
      intro q _
      by_cases hq : q.1 = k <;> simp [hq]
    rw [hfind]
    have hsome : (List.find? (fun q => decide (q.1 = k)) m).isSome = true :=
      List.find?_isSome.mpr ⟨p, hp, hpk⟩
    obtain ⟨q, hq⟩ := Option.isSome_iff_exists.mp hsome
    have hqk : q.1 = k := by simpa using List.find?_some hq
    simp [hq, hqk]
  · rename_i h
    rw [List.find?_append]
    have hnone : List.find? (fun p => decide (p.1 = k)) m = none := by
      rw [List.find?_eq_none]
      intro x hx hxk
      exact h (List.any_eq_true.mpr ⟨x, hx, hxk⟩)
    simp [hnone]

theorem mapGetA_mapSetA_ne (m : List (String × Agg)) (k k' : String) (v : Agg)
    (hne : k ≠ k') :
    mapGetA (mapSetA m k' v) k = mapGetA m k := by
  unfold mapGetA mapSetA
  split
  · rw [List.find?_map]
    have hfind : List.find? ((fun q => decide (q.1 = k)) ∘
        (fun p => if p.1 = k' then (k', v) else p)) m =
        List.find? (fun q => decide (q.1 = k)) m := by
      apply find?_congrOn
      intro q _
      by_cases hq : q.1 = k' <;> simp [hq, Ne.symm hne]
    rw [hfind]
    cases hq : List.find? (fun q => decide (q.1 = k)) m with
    | none => simp
    | some q =>
      have hqk : q.1 = k := by simpa using List.find?_some hq
      have : q.1 ≠ k' := hqk ▸ hne
      simp [this]
  · rw [List.find?_append]
    cases hq : List.find? (fun p => decide (p.1 = k)) m with
    | none => simp [Ne.symm hne]
    | some q => simp

/-- The keys of the `byStudent` map are the truthy `studentid`s, so the
empty string is never a key. -/
theorem mapGetA_buildStep_empty (joined : List JoinedRow) :
    ∀ m : List (String × Agg), mapGetA m "" = none →
      mapGetA (joined.foldl buildStep m) "" = none := by
  induction joined with
  | nil => intro m hm; simpa using hm
  | cons r t ih =>
    intro m hm
    simp only [List.foldl_cons]
    apply ih
    unfold buildStep
    cases r.studentid with
    | none => exact hm
    | some sid =>
      by_cases hsid : sid = ""
      · simp [hsid, hm]
      · simpa [hsid] using
          (mapGetA_mapSetA_ne m "" sid _ (fun h => hsid h.symm)).trans hm

/-- Invariant of the aggregation loop: the bucket finally stored for `sid`
is the fold of `aggStep` over the rows attributed to `sid`, seeded with
whatever the initial map held for `sid`. -/
theorem byStudent_inv (joined : List JoinedRow) (sid : String) (hsid : sid ≠ "") :
    ∀ m : List (String × Agg),
      mapGetA (joined.foldl buildStep m) sid =
        match joined.filter (fun r => r.studentid = some sid) with
        | [] => mapGetA m sid
        | rows => some (rows.foldl aggStep ((mapGetA m sid).getD emptyAgg)) := by
  induction joined with
  | nil => intro m; simp
  | cons r t ih =>
    intro m
    simp only [List.foldl_cons, List.filter_cons]
    by_cases hrel : r.studentid = some sid
    · have hstep : buildStep m r =
          mapSetA m sid (aggStep ((mapGetA m sid).getD emptyAgg) r) := by
        unfold buildStep
        rw [hrel]
        simp [hsid]
      rw [hstep, ih]
      have hget := mapGetA_mapSetA_self m sid (aggStep ((mapGetA m sid).getD emptyAgg) r)
      simp only [hrel, decide_eq_true_eq, if_pos]
      cases hrows : t.filter (fun r' => r'.studentid = some sid) with
      | nil => simp [hrows, hget]
      | cons r' t' => simp [hrows, hget]
    · have hstep : mapGetA (buildStep m r) sid = mapGetA m sid := by
        unfold buildStep
        cases hr : r.studentid with
        | none => rfl
        | some sid' =>
          by_cases hsid' : sid' = ""
          · simp [hsid']
          · have : sid ≠ sid' := by
              intro h
              exact hrel (by rw [hr, h])
            simp only [hsid', if_neg, ite_false]
            exact mapGetA_mapSetA_ne m sid sid' _ this
      rw [ih]
      have hcond : (decide (r.studentid = some sid)) = false := by
        simpa using hrel
      rw [hcond]
      simp only [Bool.false_eq_true, if_false]
      cases hrows : t.filter (fun r' => r'.studentid = some sid) with
      | nil => simp [hrows, hstep]
      | cons r' t' => simp [hrows, hstep]

/-- The student's bucket equals the `aggStep` fold over that student's
rows (and is absent exactly when the student has no attributed rows). -/
theorem aggOf_rowsFor (joined : List JoinedRow) (sid : String) :
    aggOf joined sid =
      match rowsFor joined sid with
      | [] => none
      | rows => some (rows.foldl aggStep emptyAgg) := by
  by_cases hsid : sid = ""
  · have : mapGetA ([] : List (String × Agg)) "" = none := rfl
    simp [hsid, rowsFor, aggOf, byStudent, mapGetA_buildStep_empty joined [] this]
  · have h := byStudent_inv joined sid hsid []
    have hnil : mapGetA ([] : List (String × Agg)) sid = none := rfl
    unfold aggOf byStudent rowsFor
    rw [h, if_neg hsid]
    cases joined.filter (fun r => r.studentid = some sid) with
    | nil => simp [hnil]
    | cons r t => simp [hnil]

theorem addDay_labels (a : Agg) (d : Option String) : (addDay a d).labels = a.labels := by
  unfold addDay
  cases d with
  | none => rfl
  | some d => by_cases h : d = "" <;> simp [h]

theorem addDay_starts (a : Agg) (d : Option String) : (addDay a d).starts = a.starts := by
  unfold addDay
  cases d with
  | none => rfl
  | some d => by_cases h : d = "" <;> simp [h]

theorem addLabel_days (a : Agg) (l : Option SessionKey) : (addLabel a l).days = a.days := by
  unfold addLabel
  cases l with
  | none => rfl
  | some s => cases s <;> rfl

theorem addLabel_starts (a : Agg) (l : Option SessionKey) :
    (addLabel a l).starts = a.starts := by
  unfold addLabel
  cases l with
  | none => rfl
  | some s => cases s <;> rfl

theorem addStart_days (a : Agg) (d : Option String) (sd : Option Int) :
    (addStart a d sd).days = a.days := by
  unfold addStart
  cases sd with
  | none => rfl
  | some t =>
    cases d with
    | none => rfl
    | some d =>
      by_cases h : d = ""
      · simp [h]
      · simp only [h, ne_eq, not_false_eq_true, if_true]
        cases mapGetI a.byDay d with
        | none => rfl
        | some e => by_cases ht : t < e <;> simp [ht]

theorem addStart_labels (a : Agg) (d : Option String) (sd : Option Int) :
    (addStart a d sd).labels = a.labels := by
  unfold addStart
  cases sd with
  | none => rfl
  | some t =>
    cases d with
    | none => rfl
    | some d =>
      by_cases h : d = ""
      · simp [h]
      · simp only [h, ne_eq, not_false_eq_true, if_true]
        cases mapGetI a.byDay d with
        | none => rfl
        | some e => by_cases ht : t < e <;> simp [ht]

theorem addStart_starts (a : Agg) (d : Option String) (sd : Option Int) :
    (addStart a d sd).starts = a.starts ++ sd.toList := by
  unfold addStart
  cases sd with
  | none => simp
  | some t =>
    cases d with
    | none => simp
    | some d =>
      by_cases h : d = ""
      · simp [h]
      · simp only [h, ne_eq, not_false_eq_true, if_true]
        cases mapGetI a.byDay d with
        | none => simp
        | some e => by_cases ht : t < e <;> simp [ht]

theorem aggStep_labels_A (a : Agg) (r : JoinedRow) :
    (aggStep a r).labels.A = a.labels.A + (if r.label = some SessionKey.A then 1 else 0) := by
  unfold aggStep
  rw [addStart_labels]
  cases r.label with
  | none => simp [addLabel, addDay_labels]
  | some s => cases s <;> simp [addLabel, addDay_labels]

theorem aggStep_labels_B (a : Agg) (r : JoinedRow) :
    (aggStep a r).labels.B = a.labels.B + (if r.label = some SessionKey.B then 1 else 0) := by
  unfold aggStep
  rw [addStart_labels]
  cases r.label with
  | none => simp [addLabel, addDay_labels]
  | some s => cases s <;> simp [addLabel, addDay_labels]

theorem foldl_aggStep_labels_A (rows : List JoinedRow) :
    ∀ a : Agg, (rows.foldl aggStep a).labels.A =
      a.labels.A + rows.countP (fun r => r.label = some SessionKey.A) := by
  induction rows with
  | nil => intro a; simp
  | cons r t ih =>
    intro a
    rw [List.foldl_cons, ih, aggStep_labels_A, List.countP_cons]
    by_cases h : r.label = some SessionKey.A <;> simp [h] <;> omega

theorem foldl_aggStep_labels_B (rows : List JoinedRow) :
    ∀ a : Agg, (rows.foldl aggStep a).labels.B =
      a.labels.B + rows.countP (fun r => r.label = some SessionKey.B) := by
  induction rows with
  | nil => intro a; simp
  | cons r t ih =>
    intro a
    rw [List.foldl_cons, ih, aggStep_labels_B, List.countP_cons]
    by_cases h : r.label = some SessionKey.B <;> simp [h] <;> omega

theorem mem_setAdd (s : List String) (x y : String) :
    y ∈ setAdd s x ↔ y ∈ s ∨ y = x := by
  unfold setAdd
  by_cases h : x ∈ s
  · simp only [h, if_true]
    constructor
    · exact Or.inl
    · rintro (hy | rfl) <;> [exact hy; exact h]
  · simp [h]

theorem nodup_setAdd (s : List String) (x : String) (h : s.Nodup) :
    (setAdd s x).Nodup := by
  unfold setAdd
  by_cases hx : x ∈ s
  · simpa [hx]
  · rw [if_neg hx, List.nodup_append]
    refine ⟨h, List.nodup_singleton x, ?_⟩
    intro y hy hyx
    rw [List.mem_singleton] at hyx
    subst hyx
    exact hx hy

theorem aggStep_days_mem (a : Agg) (r : JoinedRow) (y : String) :
    y ∈ (aggStep a r).days ↔
      y ∈ a.days ∨ ∃ d, r.day = some d ∧ d ≠ "" ∧ d.trim = y := by
  unfold aggStep
  rw [addStart_days, addLabel_days]
  unfold addDay
  cases hd : r.day with
  | none => simp
  | some d =>
    by_cases h : d = ""
    · simp [h]
    · simp only [h, ne_eq, not_false_eq_true, if_true, mem_setAdd]
      constructor
      · rintro (hy | rfl)
        · exact Or.inl hy
        · exact Or.inr ⟨d, rfl, h, rfl⟩
      · rintro (hy | ⟨d', hd', hne, ht⟩)
        · exact Or.inl hy
        · cases hd'
          exact Or.inr ht.symm

theorem aggStep_days_nodup (a : Agg) (r : JoinedRow) (h : a.days.Nodup) :
    (aggStep a r).days.Nodup := by
  unfold aggStep
  rw [addStart_days, addLabel_days]
  unfold addDay
  cases r.day with
  | none => exact h
  | some d =>
    by_cases hd : d = ""
    · simpa [hd]
    · simpa [hd] using nodup_setAdd a.days d.trim h

theorem foldl_aggStep_days_mem (rows : List JoinedRow) :
    ∀ (a : Agg) (y : String), y ∈ (rows.foldl aggStep a).days ↔
      y ∈ a.days ∨ ∃ r ∈ rows, ∃ d, r.day = some d ∧ d ≠ "" ∧ d.trim = y := by
  induction rows with
  | nil => intro a y; simp
  | cons r t ih =>
    intro a y
    rw [List.foldl_cons, ih, aggStep_days_mem]
    constructor
    · rintro (⟨hy | ⟨d, hd, hne, ht⟩⟩ | ⟨r', hr', w⟩)
      · exact Or.inl hy
      · exact Or.inr ⟨r, List.mem_cons_self r t, d, hd, hne, ht⟩
      · exact Or.inr ⟨r', List.mem_cons_of_mem r hr', w⟩
    · rintro (hy | ⟨r', hr', w⟩)
      · exact Or.inl (Or.inl hy)
      · rcases List.mem_cons.mp hr' with rfl | hr't
        · exact Or.inl (Or.inr w)
        · exact Or.inr ⟨r', hr't, w⟩

theorem foldl_aggStep_days_nodup (rows : List JoinedRow) :
    ∀ a : Agg, a.days.Nodup → (rows.foldl aggStep a).days.Nodup := by
  induction rows with
  | nil => intro a h; simpa using h
  | cons r t ih =>
    intro a h
    rw [List.foldl_cons]
    exact ih _ (aggStep_days_nodup a r h)

theorem aggStep_starts (a : Agg) (r : JoinedRow) :
    (aggStep a r).starts = a.starts ++ r.startdate.toList := by
  unfold aggStep
  rw [addStart_starts, addLabel_starts, addDay_starts]

theorem foldl_aggStep_starts (rows : List JoinedRow) :
    ∀ a : Agg, (rows.foldl aggStep a).starts =
      a.starts ++ rows.filterMap (·.startdate) := by
  induction rows with
  | nil => intro a; simp
  | cons r t ih =>
    intro a
    rw [List.foldl_cons, ih, aggStep_starts, List.filterMap_cons]
    cases r.startdate with
    | none => simp
    | some t' => simp

theorem minStarts_cons (x z : Int) (zs : List Int) :
    minStarts x (z :: zs) = minStarts (min x z) zs := rfl

theorem minStarts_mem (xs : List Int) : ∀ x : Int, minStarts x xs ∈ x :: xs := by
  induction xs with
  | nil => intro x; simp [minStarts]
  | cons z zs ih =>
    intro x
    rw [minStarts_cons]
    rcases List.mem_cons.mp (ih (min x z)) with he | hm
    · rcases min_choice x z with h' | h'
      · rw [he, h']
        exact List.mem_cons_self _ _
      · rw [he, h']
        exact List.mem_cons_of_mem _ (List.mem_cons_self _ _)
    · exact List.mem_cons_of_mem _ (List.mem_cons_of_mem _ hm)

theorem minStarts_le (xs : List Int) :
    ∀ x : Int, ∀ y ∈ x :: xs, minStarts x xs ≤ y := by
  induction xs with
  | nil =>
    intro x y hy
    rcases List.mem_cons.mp hy with rfl | h
    · exact le_refl _
    · simp at h
  | cons z zs ih =>
    intro x y hy
    rw [minStarts_cons]
    rcases List.mem_cons.mp hy with heq | hy'
    · rw [heq]
      exact le_trans (ih (min x z) (min x z) (List.mem_cons_self _ _)) (min_le_left _ _)
    · rcases List.mem_cons.mp hy' with heq' | hy''
      · rw [heq']
        exact le_trans (ih (min x z) (min x z) (List.mem_cons_self _ _)) (min_le_right _ _)
      · exact ih (min x z) y (List.mem_cons_of_mem _ hy'')

theorem insertionSort_head_mem {r : String → String → Prop} [DecidableRel r]
    (l : List String) (x : String) (t : List String)
    (h : List.insertionSort r l = x :: t) : x ∈ l := by
  have hperm := List.perm_insertionSort r l
  rw [h] at hperm
  exact hperm.mem_iff.mp (List.mem_cons_self x t)

theorem insertionSort_head_le {r : String → String → Prop} [DecidableRel r]
    [IsTotal String r] [IsTrans String r] [IsRefl String r]
    (l : List String) (x : String) (t : List String)
    (h : List.insertionSort r l = x :: t) : ∀ y ∈ l, r x y := by
  intro y hy
  have hperm := List.perm_insertionSort r l
  rw [h] at hperm
  have hsorted := List.sorted_insertionSort r l
  rw [h] at hsorted
  rcases List.mem_cons.mp (hperm.symm.mem_iff.mp hy) with rfl | hyt
  · exact IsRefl.refl y
  · exact List.rel_of_sorted_cons hsorted y hyt

theorem earnings_counts (l : List Student) :
    ∀ acc : Earnings,
      (l.foldl earningsStep acc).paidCount + (l.foldl earningsStep acc).unpaidCount +
        (l.foldl earningsStep acc).failedCount =
      acc.paidCount + acc.unpaidCount + acc.failedCount + l.length := by
  induction l with
  | nil => intro acc; simp
  | cons s t ih =>
    intro acc
    rw [List.foldl_cons, ih]
    cases h : s.paymentStatus <;> simp [earningsStep, h] <;> omega

theorem earnings_money (l : List Student) :
    ∀ acc : Earnings,
      (l.foldl earningsStep acc).earned + (l.foldl earningsStep acc).outstanding =
      acc.earned + acc.outstanding + (l.map tuitionFor).sum := by
  induction l with
  | nil => intro acc; simp
  | cons s t ih =>
    intro acc
    rw [List.foldl_cons, ih]
    cases h : s.paymentStatus <;> simp [earningsStep, h] <;> omega

theorem aggOf_of_rows_ne (joined : List JoinedRow) (sid : String)
    (h : rowsFor joined sid ≠ []) :
    aggOf joined sid = some ((rowsFor joined sid).foldl aggStep emptyAgg) := by
  rw [aggOf_rowsFor]
  cases hrw : rowsFor joined sid with
  | nil => exact absurd hrw h
  | cons r t => rfl

theorem aggOf_of_rows_eq (joined : List JoinedRow) (sid : String)
    (h : rowsFor joined sid = []) : aggOf joined sid = none := by
  rw [aggOf_rowsFor, h]

/-- C1: `calculateOwed` returns 0 for a PAID student; otherwise, with the
session defaulting to `A`, a TWICE_A_WEEK student owes the `both` price of
(location, session), and a ONCE_A_WEEK student owes the per-day price of
(location, session, first selected day) whenever that entry exists. -/
theorem C1_calculateOwed_price_table (s : Student) :
    (s.paymentStatus = .PAID → calculateOwed s = 0) ∧
    (s.paymentStatus ≠ .PAID → s.frequency = .TWICE_A_WEEK →
      calculateOwed s = (prices s.location (s.sessionLabel.getD .A)).both) ∧
    (s.paymentStatus ≠ .PAID → s.frequency = .ONCE_A_WEEK →
      ∀ d p, s.selectedDays.head? = some d →
        (prices s.location (s.sessionLabel.getD .A)).dayPrice d = some p →
        calculateOwed s = p) := by
  refine ⟨?_, ?_, ?_⟩
  · intro h
    simp [calculateOwed, h]
  · intro h hf
    simp [calculateOwed, h, hf]
  · intro h hf d p hd hp
    simp [calculateOwed, h, hf, hd, hp]

theorem C1_calculateOwed_price_table_witness :
    calculateOwed c1Paid = 0 ∧
    calculateOwed c1Twice = (prices .SUGARLAND .B).both ∧
    calculateOwed c1Once = 245 :=
  ⟨(C1_calculateOwed_price_table c1Paid).1 rfl,
   (C1_calculateOwed_price_table c1Twice).2.1 (by decide) rfl,
   (C1_calculateOwed_price_table c1Once).2.2 (by decide) rfl "Tuesday" 245 rfl (by decide)⟩

/-- C9: `calculateOwed` agrees with `tuitionFor` behind the PAID
short-circuit: `calculateOwed s = if PAID then 0 else tuitionFor s`. -/
theorem C9_calculateOwed_refines_tuitionFor (s : Student) :
    calculateOwed s = if s.paymentStatus = .PAID then 0 else tuitionFor s := by
  by_cases h : s.paymentStatus = .PAID
  · simp [calculateOwed, tuitionFor, h]
  · simp [calculateOwed, tuitionFor, h]

/-- C5: the GET composition and `calculateOwed` are deterministic — equal
inputs (student rows, join rows) give equal per-student views and equal
owed amounts. -/
theorem C5_composition_deterministic (st1 st2 : List StudentRow)
    (j1 j2 : List JoinedRow) (cs1 cs2 : Student)
    (hs : st1 = st2) (hj : j1 = j2) (hc : cs1 = cs2) :
    composeViews st1 j1 = composeViews st2 j2 ∧ calculateOwed cs1 = calculateOwed cs2 := by
  subst hs
  subst hj
  subst hc
  exact ⟨rfl, rfl⟩

theorem C5_composition_deterministic_witness :
    composeViews [c5Row] c5Join = composeViews [c5Row] c5Join ∧
    calculateOwed c5Client = calculateOwed c5Client :=
  C5_composition_deterministic [c5Row] [c5Row] c5Join c5Join c5Client c5Client rfl rfl rfl

/-- C6: for every location and session the price table has a (positive)
`both` entry, and a per-day entry for each of that location's class days
(`dayOptionsFor`). -/
theorem C6_price_table_total (loc : LocationKey) (sess : SessionKey) :
    0 < (prices loc sess).both ∧
    ∀ d : DayKey, d ∈ dayOptionsFor loc →
      ((prices loc sess).dayPrice (dayKeyStr d)).isSome := by
  cases loc <;> cases sess <;>
    refine ⟨by decide, ?_⟩ <;>
    · intro d hd
      cases d <;> simp [dayOptionsFor] at hd <;> decide

theorem C6_price_table_total_witness :
    0 < (prices .KATY .A).both ∧
    DayKey.Tuesday ∈ dayOptionsFor .KATY ∧
    ((prices .KATY .A).dayPrice (dayKeyStr .Tuesday)).isSome :=
  ⟨(C6_price_table_total .KATY .A).1, by decide,
   (C6_price_table_total .KATY .A).2 .Tuesday (by decide)⟩

/-- C8: the composed view's `frequency` is TWICE_A_WEEK exactly when the
derived `selectedDays` has at least two entries (ONCE_A_WEEK otherwise),
and it ignores the frequency stored on the student row. -/
theorem C8_frequency_derived (joined : List JoinedRow) (s : StudentRow) (f : Frequency) :
    ((composeOne joined s).frequency = .TWICE_A_WEEK ↔
      2 ≤ (composeOne joined s).selectedDays.length) ∧
    ((composeOne joined s).frequency = .ONCE_A_WEEK ↔
      (composeOne joined s).selectedDays.length < 2) ∧
    (composeOne joined { s with frequency := f }).frequency =
      (composeOne joined s).frequency := by
  refine ⟨?_, ?_, ?_⟩
  · show frequencyOf joined s = .TWICE_A_WEEK ↔ 2 ≤ (selectedDaysOf joined s).length
    unfold frequencyOf
    by_cases h : 2 ≤ (selectedDaysOf joined s).length
    · simp [h]
    · simp [h]
  · show frequencyOf joined s = .ONCE_A_WEEK ↔ (selectedDaysOf joined s).length < 2
    unfold frequencyOf
    by_cases h : 2 ≤ (selectedDaysOf joined s).length
    · simp [h] <;> omega
    · simp [h] <;> omega
  · show frequencyOf joined { s with frequency := f } = frequencyOf joined s
    rfl

/-- C2 (counterexample): a student with one attributed enrollment row whose
section label is null gets `sessionLabel = null`, not the
majority-with-tie-toward-A label `'A'`. -/
theorem C2_counterexample :
    rowsFor c2Joined c2Student.id ≠ [] ∧
    (composeOne c2Joined c2Student).sessionLabel ≠
      some (if labelCountB c2Joined c2Student.id ≤ labelCountA c2Joined c2Student.id
            then SessionKey.A else SessionKey.B) := by
  decide

/-- C2 (amended): for every student with at least one labelled attributed
enrollment row, the composed `sessionLabel` is the label occurring most
frequently among the student's rows, ties broken toward `'A'`. -/
theorem C2_sessionLabel_majority (joined : List JoinedRow) (s : StudentRow)
    (h : 0 < labelCountA joined s.id + labelCountB joined s.id) :
    (composeOne joined s).sessionLabel =
      some (if labelCountB joined s.id ≤ labelCountA joined s.id
            then SessionKey.A else SessionKey.B) := by
  have hrows : rowsFor joined s.id ≠ [] := by
    intro hr
    rw [labelCountA, labelCountB, hr] at h
    simp at h
  have hagg := aggOf_of_rows_ne joined s.id hrows
  show sessionLabelOf joined s.id = _
  unfold sessionLabelOf
  rw [hagg]
  have hA : ((rowsFor joined s.id).foldl aggStep emptyAgg).labels.A =
      labelCountA joined s.id := by
    rw [foldl_aggStep_labels_A]
    simp [emptyAgg, labelCountA]
  have hB : ((rowsFor joined s.id).foldl aggStep emptyAgg).labels.B =
      labelCountB joined s.id := by
    rw [foldl_aggStep_labels_B]
    simp [emptyAgg, labelCountB]
  simp only [hA, hB]
  by_cases hab : labelCountB joined s.id ≤ labelCountA joined s.id
  · have hApos : labelCountA joined s.id ≠ 0 := by omega
    simp [hab, hApos, ge_iff_le]
  · have : ¬ labelCountA joined s.id ≥ labelCountB joined s.id := hab
    simp [hab, this]

theorem C2_sessionLabel_majority_witness :
    0 < labelCountA c2wJoined c2wStudent.id + labelCountB c2wJoined c2wStudent.id ∧
    (composeOne c2wJoined c2wStudent).sessionLabel =
      some (if labelCountB c2wJoined c2wStudent.id ≤ labelCountA c2wJoined c2wStudent.id
            then SessionKey.A else SessionKey.B) :=
  ⟨by decide, C2_sessionLabel_majority c2wJoined c2wStudent (by decide)⟩

/-- C3: when a student has attributed enrollment rows, the composed
`selectedDays` is exactly the deduplicated set of (trimmed, nonempty) days
of those rows, sorted by the weekday order; with no rows it falls back to
the student's stored `selectedDays` (sorted the same way). -/
theorem C3_selectedDays_enrollment_days (joined : List JoinedRow) (s : StudentRow) :
    (rowsFor joined s.id ≠ [] →
      (∀ y, y ∈ (composeOne joined s).selectedDays ↔
        ∃ r ∈ rowsFor joined s.id, ∃ d, r.day = some d ∧ d ≠ "" ∧ d.trim = y) ∧
      (composeOne joined s).selectedDays.Nodup ∧
      List.Sorted dayLe (composeOne joined s).selectedDays) ∧
    (rowsFor joined s.id = [] →
      (composeOne joined s).selectedDays = List.insertionSort dayLe s.selectedDays) := by
  constructor
  · intro hrows
    have hagg := aggOf_of_rows_ne joined s.id hrows
    have hdays : (composeOne joined s).selectedDays =
        List.insertionSort dayLe ((rowsFor joined s.id).foldl aggStep emptyAgg).days := by
      show selectedDaysOf joined s = _
      unfold selectedDaysOf
      rw [hagg]
      rfl
    have hperm := List.perm_insertionSort dayLe
      ((rowsFor joined s.id).foldl aggStep emptyAgg).days
    refine ⟨?_, ?_, ?_⟩
    · intro y
      rw [hdays, hperm.mem_iff, foldl_aggStep_days_mem]
      simp [emptyAgg]
    · rw [hdays, hperm.nodup_iff]
      exact foldl_aggStep_days_nodup _ emptyAgg (by simp [emptyAgg])
    · rw [hdays]
      exact List.sorted_insertionSort dayLe _
  · intro hrows
    have hagg := aggOf_of_rows_eq joined s.id hrows
    show selectedDaysOf joined s = _
    unfold selectedDaysOf
    rw [hagg]
    simp

theorem C3_selectedDays_enrollment_days_witness :
    (composeOne c3Joined c3Student).selectedDays.Nodup ∧
    List.Sorted dayLe (composeOne c3Joined c3Student).selectedDays ∧
    (composeOne c3NoRows c3Student).selectedDays =
      List.insertionSort dayLe c3Student.selectedDays :=
  ⟨((C3_selectedDays_enrollment_days c3Joined c3Student).1 (by decide)).2.1,
   ((C3_selectedDays_enrollment_days c3Joined c3Student).1 (by decide)).2.2,
   (C3_selectedDays_enrollment_days c3NoRows c3Student).2 (by decide)⟩

/-- C10: over any student list whose statuses are PAID/PENDING/FAILED, the
earnings counters partition the list and `earned + outstanding` equals the
total of `tuitionFor` over all students. -/
theorem C10_earnings_conservation (students : List Student)
    (_h : ∀ s ∈ students, s.paymentStatus = .PAID ∨ s.paymentStatus = .PENDING ∨
      s.paymentStatus = .FAILED) :
    (earnings students).paidCount + (earnings students).unpaidCount +
      (earnings students).failedCount = students.length ∧
    (earnings students).earned + (earnings students).outstanding =
      (students.map tuitionFor).sum := by
  unfold earnings
  refine ⟨?_, ?_⟩
  · have h := earnings_counts students ⟨0, 0, 0, 0, 0⟩
    simpa using h
  · have h := earnings_money students ⟨0, 0, 0, 0, 0⟩
    simpa using h

/-- C4 (counterexample): a student with a valid start date on a row that
carries no day. The per-day start dates are `{Monday ↦ 100}`, but the
composed `startDate` is `0` (the minimum over all valid start dates), so it
is not the earliest of the per-day start dates. -/
theorem C4_counterexample :
    validStarts c4Joined c4Student.id ≠ [] ∧
    perDayStarts c4Joined c4Student.id = [100] ∧
    (composeOne c4Joined c4Student).startDate = 0 ∧
    ¬ (composeOne c4Joined c4Student).startDate ∈ perDayStarts c4Joined c4Student.id := by
  decide

/-- C4 (amended): when a student's rows carry at least one valid start
date, the composed `startDate` is the minimum of all those valid start
dates (rows without a day included); on the client, `chooseStartDateIso`
returns the least looked-up per-day date over the selected days when any
exist, else the stored `startDate`. -/
theorem C4_startDate_earliest (joined : List JoinedRow) (s : StudentRow) (cs : Student) :
    (validStarts joined s.id ≠ [] →
      (composeOne joined s).startDate ∈ validStarts joined s.id ∧
      ∀ t ∈ validStarts joined s.id, (composeOne joined s).startDate ≤ t) ∧
    (clientFromDays cs ≠ [] →
      chooseStartDateIso cs ∈ clientFromDays cs ∧
      ∀ x ∈ clientFromDays cs, strLe (chooseStartDateIso cs) x) ∧
    (clientFromDays cs = [] → chooseStartDateIso cs = cs.startDate) := by
  refine ⟨?_, ?_, ?_⟩
  · intro hv
    have hrows : rowsFor joined s.id ≠ [] := by
      intro hr
      rw [validStarts, hr] at hv
      simp at hv
    have hagg := aggOf_of_rows_ne joined s.id hrows
    have hstarts : ((rowsFor joined s.id).foldl aggStep emptyAgg).starts =
        validStarts joined s.id := by
      rw [foldl_aggStep_starts]
      simp [emptyAgg, validStarts]
    cases hvs : validStarts joined s.id with
    | nil => exact absurd hvs hv
    | cons t ts =>
      have hlist : ((rowsFor joined s.id).foldl aggStep emptyAgg).starts = t :: ts := by
        rw [hstarts, hvs]
      have hmin : (composeOne joined s).startDate = minStarts t ts := by
        show earliestTsOf joined s = minStarts t ts
        unfold earliestTsOf
        rw [hagg]
        simp only [hlist]
      rw [hmin]
      exact ⟨minStarts_mem ts t, minStarts_le ts t⟩
  · intro hne
    cases hs : List.insertionSort strLe (clientFromDays cs) with
    | nil =>
      exfalso
      have hperm := List.perm_insertionSort strLe (clientFromDays cs)
      rw [hs] at hperm
      exact hne hperm.symm.eq_nil
    | cons x t =>
      have hx : chooseStartDateIso cs = x := by
        unfold chooseStartDateIso
        rw [hs]
      rw [hx]
      exact ⟨insertionSort_head_mem _ x t hs, insertionSort_head_le _ x t hs⟩
  · intro h
    unfold chooseStartDateIso
    rw [h]
    simp

theorem C4_startDate_earliest_witness :
    (composeOne c4wJoined c4wStudent).startDate = 200 ∧
    (composeOne c4wJoined c4wStudent).startDate ∈ validStarts c4wJoined c4wStudent.id ∧
    chooseStartDateIso c4wClient = "2025-09-04" ∧
    chooseStartDateIso c4wClient ∈ clientFromDays c4wClient ∧
    chooseStartDateIso c4wClientNoMap = c4wClientNoMap.startDate :=
  ⟨by decide,
   ((C4_startDate_earliest c4wJoined c4wStudent c4wClient).1 (by decide)).1,
   by decide,
   ((C4_startDate_earliest c4wJoined c4wStudent c4wClient).2.1 (by decide)).1,
   (C4_startDate_earliest c4wJoined c4wStudent c4wClientNoMap).2.2 (by decide)⟩

/-- C7: a valid PUT (body with a truthy id) maps the student table
pointwise — every row with a different id is untouched, and the matching
row changes only in `paymentStatus` and `paymentMethod`, each according to
the patch. -/
theorem C7_put_frame (db : List StudentRow) (body : UpdatePayload) (i : String)
    (hid : body.id = some i) (hi : i ≠ "") :
    (putStudents db body).length = db.length ∧
    (∀ (n : Nat) (s : StudentRow), db[n]? = some s → s.id ≠ i →
      (putStudents db body)[n]? = some s) ∧
    (∀ (n : Nat) (s : StudentRow), db[n]? = some s → s.id = i →
      (putStudents db body)[n]? = some (applyPatch body s) ∧
      (applyPatch body s).id = s.id ∧
      (applyPatch body s).studentName = s.studentName ∧
      (applyPatch body s).age = s.age ∧
      (applyPatch body s).parentName = s.parentName ∧
      (applyPatch body s).phone = s.phone ∧
      (applyPatch body s).email = s.email ∧
      (applyPatch body s).location = s.location ∧
      (applyPatch body s).frequency = s.frequency ∧
      (applyPatch body s).selectedDays = s.selectedDays ∧
      (applyPatch body s).startDate = s.startDate ∧
      (applyPatch body s).liabilityAccepted = s.liabilityAccepted ∧
      (applyPatch body s).waiverName = s.waiverName ∧
      (applyPatch body s).waiverAddress = s.waiverAddress ∧
      (applyPatch body s).paymentStatus = body.paymentStatus.getD s.paymentStatus ∧
      (applyPatch body s).paymentMethod = body.paymentMethod.getD s.paymentMethod) := by
  have hput : putStudents db body =
      db.map (fun s => if s.id = i then applyPatch body s else s) := by
    unfold putStudents
    rw [hid]
    simp [hi]
  refine ⟨?_, ?_, ?_⟩
  · rw [hput]
    exact List.length_map _ _
  · intro n s hn hne
    rw [hput, List.getElem?_map, hn]
    simp [hne]
  · intro n s hn heq
    refine ⟨?_, ?_⟩
    · rw [hput, List.getElem?_map, hn]
      simp [heq]
    · unfold applyPatch
      cases body.paymentStatus <;> cases body.paymentMethod <;> simp

theorem C7_put_frame_witness :
    (putStudents c7db c7body).length = c7db.length ∧
    (putStudents c7db c7body)[1]? = some c7b ∧
    (putStudents c7db c7body)[0]? = some (applyPatch c7body c7a) ∧
    (applyPatch c7body c7a).email = c7a.email ∧
    (applyPatch c7body c7a).paymentStatus = c7body.paymentStatus.getD c7a.paymentStatus :=
  ⟨(C7_put_frame c7db c7body "a" rfl (by decide)).1,
   (C7_put_frame c7db c7body "a" rfl (by decide)).2.1 1 c7b (by decide) (by decide),
   ((C7_put_frame c7db c7body "a" rfl (by decide)).2.2 0 c7a (by decide) (by decide)).1,
   ((C7_put_frame c7db c7body "a" rfl (by decide)).2.2 0 c7a (by decide) (by decide)).2.2.2.2.2.2.1,
   ((C7_put_frame c7db c7body "a" rfl (by decide)).2.2 0 c7a (by decide) (by decide)).2.2.2.2.2.2.2.2.2.2.2.2.2.2.1⟩

theorem C10_earnings_conservation_witness :
    (earnings c10List).paidCount + (earnings c10List).unpaidCount +
      (earnings c10List).failedCount = c10List.length ∧
    (earnings c10List).earned + (earnings c10List).outstanding =
      (c10List.map tuitionFor).sum :=
  C10_earnings_conservation c10List (by decide)

end Baila

